import Mathlib

/-!
Verification of the poster-backfill pipeline of `mpp-go` (`src/cli.go`).

The pipeline selects catalog records whose `Poster` column is `NULL`,
fetches a poster URL for each from the OMDB API with a fixed-size pool of
worker goroutines fed by one buffered channel, and writes each resolved URL
back to the database.  External effects (the SQLite database, the HTTP
service) are modelled by explicit oracles; the concurrent dispatcher is
modelled by an executable small-step machine over all action interleavings.
-/

namespace MPP

/-- Go `error` values, modelled by their message strings. -/
abbrev GoError := String

/-- A row of the `movies` table (`type Movie` in `backend/movie.go`).
`Poster` is a `NullString`, modelled as `Option String` (`none` = SQL NULL).
`Rating` is a Go `float64`; no claim depends on floating-point rounding, so
it is modelled by exact rationals. -/
structure Movie where
  imdbID : String
  title : String
  year : Int
  rating : Rat
  poster : Option String
deriving DecidableEq, Repr

/-- The body of an OMDB HTTP response, as seen by
`json.NewDecoder(resp.Body).Decode(&result)` for
`type OMDBAPIResponse struct { Poster string }`: either decoding fails,
or it yields the decoded `Poster` field.  A JSON body whose `Poster` key is
absent decodes to the empty string (the Go zero value). -/
inductive HTTPBody where
  | decodeErr (msg : GoError)
  | decoded (poster : String)
deriving DecidableEq, Repr

/-- The outcome of `http.Get`: a network-level error, or a response with a
status code and a body. -/
inductive HTTPResult where
  | netErr (msg : GoError)
  | resp (statusCode : Nat) (body : HTTPBody)
deriving DecidableEq, Repr

/-- Go's `strings.ToLower`, as used by `fetchPoster`: lowercase every
character (the inputs compared are ASCII). -/
def goToLower (s : String) : String := String.mk (s.data.map Char.toLower)

/-- `const OMDB_API_KEY = "34e1747c"` in `src/cli.go`. -/
def OMDB_API_KEY : String := "34e1747c"

/-- The request URL built by `fetchPoster`:
`fmt.Sprintf("http://www.omdbapi.com/?i=%s&apikey=%s", imdbID, OMDB_API_KEY)`. -/
def apiURL (imdbID : String) : String :=
  "http://www.omdbapi.com/?i=" ++ imdbID ++ "&apikey=" ++ OMDB_API_KEY

/-- `fetchPoster` from `src/cli.go`, over an HTTP oracle `http` mapping a
request URL to the observed `HTTPResult` of `http.Get` for this run:

* `http.Get` error        ⇒ returned as is;
* status code ≠ 200       ⇒ `error "unexpected status code: <code>"`;
* JSON decode failure     ⇒ returned as is;
* `Poster` empty or `strings.ToLower` equal to `"n/a"` ⇒ `error "poster not found"`;
* otherwise               ⇒ `ok` with the `Poster` field verbatim. -/
def fetchPoster (http : String → HTTPResult) (imdbID : String) : Except GoError String :=
  match http (apiURL imdbID) with
  | .netErr e => .error e
  | .resp statusCode body =>
    if statusCode ≠ 200 then .error ("unexpected status code: " ++ toString statusCode)
    else
      match body with
      | .decodeErr e => .error e
      | .decoded poster =>
        if poster = "" ∨ (goToLower poster) = "n/a" then .error "poster not found"
        else .ok poster

/-- `updatePosterInDB` from `src/cli.go`:
`UPDATE movies SET Poster = ? WHERE IMDb_id = ?`.
`execOk` injects the possibility that `stmt.Exec` fails at the storage layer
(in which case the table is untouched and the error is returned); when the
statement executes, every row whose `IMDb_id` equals `imdbID` gets its
`Poster` set, all other rows and columns are untouched, and `nil` is
returned — the function never inspects `RowsAffected`. -/
def updatePosterInDB (execOk : Bool) (db : List Movie) (imdbID posterURL : String) :
    List Movie × Option GoError :=
  if execOk then
    (db.map (fun m => if m.imdbID = imdbID then { m with poster := some posterURL } else m),
      none)
  else (db, some "storage write error")

/-- SQLite `LIMIT ?` semantics for the bound parameter `limit`: a negative
limit means "no limit", otherwise at most `limit` rows are returned. -/
def sqlLimit {α : Type} (limit : Int) (rows : List α) : List α :=
  if limit < 0 then rows else rows.take limit.toNat

/-- The result set of the candidate-selection query in
`fetchPostersConcurrently`:
`SELECT IMDb_id FROM movies WHERE Poster IS NULL LIMIT ?`. -/
def selectMissingPosters (db : List Movie) (limit : Int) : List String :=
  sqlLimit limit ((db.filter (fun m => m.poster.isNone)).map (fun m => m.imdbID))

/-- The `rows.Next()/rows.Scan` loop of `fetchPostersConcurrently`, over an
oracle `scanErr` telling whether scanning the `k`-th result row fails.  On
the first scan failure the accumulated ids are discarded and the error is
returned; otherwise all ids are collected in order. -/
def scanRows (scanErr : Nat → Option GoError) : Nat → List String → Except GoError (List String)
  | _, [] => .ok []
  | k, imdbID :: rest =>
    match scanErr k with
    | some e => .error e
    | none =>
      match scanRows scanErr (k + 1) rest with
      | .error e => .error e
      | .ok ids => .ok (imdbID :: ids)

/-- Failure oracle for the database read side of one run: `queryErr` is the
error returned by `db.Query` (if any), `scanErr` tells which row scans
fail. -/
structure DBEnv where
  queryErr : Option GoError
  scanErr : Nat → Option GoError

/-- The selection phase of `fetchPostersConcurrently`: `db.Query` followed
by the scan loop; the part of the function before any worker is started. -/
def selectPhase (denv : DBEnv) (db : List Movie) (limit : Int) :
    Except GoError (List String) :=
  match denv.queryErr with
  | some e => .error e
  | none => scanRows denv.scanErr 0 (selectMissingPosters db limit)

/-- Environment of the fetch/persist side of one run: `http` is the HTTP
oracle used by `fetchPoster`; `writeOk id` tells whether the `UPDATE`
statement issued for `id` executes successfully at the storage layer. -/
structure FetchEnv where
  http : String → HTTPResult
  writeOk : String → Bool

/-- The loop body of one worker goroutine in `fetchPostersConcurrently` for
one received id, as a database transformer: fetch the poster; on error,
`continue` (no write); on success, run `updatePosterInDB`, whose error is
ignored.  The fetch performs no database access, and the single `UPDATE` is
executed atomically by the storage layer, so one worker iteration is one
atomic database step. -/
def workerStep (fenv : FetchEnv) (db : List Movie) (imdbID : String) : List Movie :=
  match fetchPoster fenv.http imdbID with
  | .error _ => db
  | .ok posterURL => (updatePosterInDB (fenv.writeOk imdbID) db imdbID posterURL).1

/-- The effect of one worker iteration for id `imdbID` on a single row `m`
(the per-row view of `workerStep`, used to reason record-wise). -/
def recordStep (fenv : FetchEnv) (m : Movie) (imdbID : String) : Movie :=
  match fetchPoster fenv.http imdbID with
  | .error _ => m
  | .ok posterURL =>
    if fenv.writeOk imdbID then
      (if m.imdbID = imdbID then { m with poster := some posterURL } else m)
    else m

/-- The ids of an attempt list for which the worker actually called
`updatePosterInDB` (fetch succeeded; the call itself may still fail). -/
def updateCalls (fenv : FetchEnv) (attempts : List String) : List String :=
  attempts.filter (fun imdbID => (fetchPoster fenv.http imdbID).toOption.isSome)

/-- State of one worker goroutine: `busy` is the id it is currently
processing (if any); `finished` means it has observed channel closure,
exited its `range` loop and run `wg.Done()`. -/
structure WorkerState where
  busy : Option String
  finished : Bool
deriving DecidableEq, Repr

/-- State of the dispatch phase of `fetchPostersConcurrently`:
the producer's not-yet-sent ids (`pending`), the contents of the buffered
channel `imdbChan` (`buffer`, FIFO), whether the channel has been closed,
the worker pool, the database, and whether the function has returned.
`processed` is a ghost history variable recording, in completion order, the
ids whose fetch/persist iteration has run. -/
structure DispatchState where
  pending : List String
  buffer : List String
  closed : Bool
  workers : List WorkerState
  db : List Movie
  processed : List String
  returned : Bool
deriving DecidableEq, Repr

/-- Capacity of the work channel: `make(chan string, len(imdbIDs))`. -/
def chanCapacity (imdbIDs : List String) : Nat := imdbIDs.length

/-- Dispatch state at the point where the workers are spawned:
`for i := 0; i < workerCount; i++` starts `max workerCount 0` workers. -/
def initState (imdbIDs : List String) (workerCount : Int) (db : List Movie) :
    DispatchState :=
  { pending := imdbIDs
    buffer := []
    closed := false
    workers := List.replicate workerCount.toNat { busy := none, finished := false }
    db := db
    processed := []
    returned := false }

/-- Scheduler choices for the dispatch machine. -/
inductive Action where
  | send
  | close
  | recv (i : Nat)
  | work (i : Nat)
  | exitLoop (i : Nat)
  | ret
deriving DecidableEq, Repr

/-- One interleaving step of the dispatch phase; `none` when the chosen
action is not enabled in `s` (a blocked send, an empty channel, …):

* `send`: the producer sends the next id; requires room in the buffer.
* `close`: `close(imdbChan)`; in program order this happens only after the
  producer's send loop is done.
* `recv i`: idle unfinished worker `i` receives the channel's head.
* `work i`: worker `i` runs `fetchPoster` and (on success)
  `updatePosterInDB` for the id it holds.
* `exitLoop i`: idle worker `i` observes the closed, drained channel, exits
  its `range` loop and runs `wg.Done()`.
* `ret`: `wg.Wait()` unblocks (every worker finished; in program order the
  producer has already closed the channel) and the function returns `nil`. -/
def doAction (fenv : FetchEnv) (imdbIDs : List String) (s : DispatchState) :
    Action → Option DispatchState
  | .send =>
    match s.pending with
    | [] => none
    | imdbID :: rest =>
      if s.buffer.length < chanCapacity imdbIDs then
        some { s with pending := rest, buffer := s.buffer ++ [imdbID] }
      else none
  | .close =>
    if s.pending = [] ∧ s.closed = false then some { s with closed := true } else none
  | .recv i =>
    match s.workers[i]?, s.buffer with
    | some w, imdbID :: rest =>
      if w.busy = none ∧ w.finished = false then
        some { s with buffer := rest,
                      workers := s.workers.set i { busy := some imdbID, finished := false } }
      else none
    | _, _ => none
  | .work i =>
    match s.workers[i]? with
    | some w =>
      match w.busy with
      | some imdbID =>
        if w.finished = false then
          some { s with db := workerStep fenv s.db imdbID
                        processed := s.processed ++ [imdbID]
                        workers := s.workers.set i { busy := none, finished := false } }
        else none
      | none => none
    | none => none
  | .exitLoop i =>
    match s.workers[i]? with
    | some w =>
      if w.busy = none ∧ w.finished = false ∧ s.closed = true ∧ s.buffer = [] then
        some { s with workers := s.workers.set i { busy := none, finished := true } }
      else none
    | none => none
  | .ret =>
    if s.closed = true ∧ (∀ w ∈ s.workers, w.finished = true) ∧ s.returned = false then
      some { s with returned := true }
    else none

/-- Run a list of scheduler choices from `s`; `none` if any chosen action
is not enabled when its turn comes. -/
def runActions (fenv : FetchEnv) (imdbIDs : List String) (s : DispatchState) :
    List Action → Option DispatchState
  | [] => some s
  | a :: rest =>
    match doAction fenv imdbIDs s a with
    | some s' => runActions fenv imdbIDs s' rest
    | none => none

/-- The dispatch states reachable in a run of `fetchPostersConcurrently`
over selected ids `imdbIDs` with `workerCount` workers, starting from
database `db`. -/
def Reach (fenv : FetchEnv) (imdbIDs : List String) (workerCount : Int)
    (db : List Movie) (s : DispatchState) : Prop :=
  ∃ acts : List Action, runActions fenv imdbIDs (initState imdbIDs workerCount db) acts = some s

/-- `fetchPostersConcurrently` from `src/cli.go`, as a relation between the
initial database and the observables of one complete run: the final
database, the list of ids passed to `fetchPoster` (in completion order),
and the returned error.

* `selectFail`: `db.Query` or a row scan fails; the error is returned
  before any worker is started, the database is untouched and no fetch is
  attempted.
* `dispatched`: selection succeeded; any interleaving of the dispatch
  machine that reaches the function's return yields a run, which always
  returns `nil`. -/
inductive fetchPostersConcurrently (denv : DBEnv) (fenv : FetchEnv) (db : List Movie)
    (workerCount : Int) (limit : Int) : List Movie → List String → Option GoError → Prop where
  | selectFail (e : GoError) (hsel : selectPhase denv db limit = .error e) :
      fetchPostersConcurrently denv fenv db workerCount limit db [] (some e)
  | dispatched (imdbIDs : List String) (acts : List Action) (s : DispatchState)
      (hsel : selectPhase denv db limit = .ok imdbIDs)
      (hrun : runActions fenv imdbIDs (initState imdbIDs workerCount db) acts = some s)
      (hret : s.returned = true) :
      fetchPostersConcurrently denv fenv db workerCount limit s.db s.processed none

/-- `const workerCount = 3` in `handleFetchPostersCLI` (`src/cli.go`). -/
def cliWorkerCount : Int := 3

/-- `handleFetchPostersCLI` from `src/cli.go`: triggers a pipeline run with
the hardcoded worker count (its only other behavior is printing the
returned error, which has no effect on the database). -/
def handleFetchPostersCLI (denv : DBEnv) (fenv : FetchEnv) (db : List Movie) (limit : Int) :
    List Movie → List String → Option GoError → Prop :=
  fetchPostersConcurrently denv fenv db cliWorkerCount limit

/-- The ids currently held by workers (the in-flight items). -/
def busyList : List WorkerState → List String
  | [] => []
  | w :: ws => w.busy.toList ++ busyList ws

/-- Invariant of the dispatch machine, for selected ids `imdbIDs`, initial
database `db0` and `workerCount` workers:

* `perm`: every id is in exactly one place — unsent, buffered, held by a
  worker, or processed;
* `wlen`: the pool size is fixed;
* `closed_pending`: the channel is closed only after every id was sent;
* `fin_not_busy`: a finished worker holds no item;
* `fin_closed`: a worker can only have finished after the channel closed;
* `all_fin_buffer`: when the pool is nonempty and every worker finished,
  the channel has been drained;
* `db_eq`: the database is the initial one updated by the processed ids in
  completion order;
* `ret_spec`: the function returns only after close and full join;
* `no_worker_no_processed`: with an empty pool nothing is ever processed. -/
structure Inv (fenv : FetchEnv) (imdbIDs : List String) (db0 : List Movie)
    (workerCount : Int) (s : DispatchState) : Prop where
  perm : (↑s.pending + ↑s.buffer + ↑(busyList s.workers) + ↑s.processed : Multiset String)
      = ↑imdbIDs
  wlen : s.workers.length = workerCount.toNat
  closed_pending : s.closed = true → s.pending = []
  fin_not_busy : ∀ w ∈ s.workers, w.finished = true → w.busy = none
  fin_closed : ∀ w ∈ s.workers, w.finished = true → s.closed = true
  all_fin_buffer : s.closed = true → s.workers ≠ [] →
      (∀ w ∈ s.workers, w.finished = true) → s.buffer = []
  db_eq : s.db = s.processed.foldl (workerStep fenv) db0
  ret_spec : s.returned = true → s.closed = true ∧ ∀ w ∈ s.workers, w.finished = true
  no_worker_no_processed : s.workers = [] → s.processed = []

/-! ### Concrete sample rows and environments (used by witnesses) -/

/-- A sample row without a poster. -/
def mA : Movie := { imdbID := "tt1", title := "A", year := 2000, rating := 0, poster := none }

/-- A second sample row without a poster. -/
def mB : Movie := { imdbID := "tt2", title := "B", year := 2001, rating := 0, poster := none }

/-- A two-row sample table, both rows lacking a poster. -/
def dbSample : List Movie := [mA, mB]

/-- `mA` after its poster is persisted. -/
def mAp : Movie := { mA with poster := some "http:u" }

/-- `mB` after its poster is persisted. -/
def mBp : Movie := { mB with poster := some "http:u" }

/-- An environment where every lookup resolves and every write succeeds. -/
def fenvOK : FetchEnv := ⟨fun _ => .resp 200 (.decoded "http:u"), fun _ => true⟩

/-- An environment where every lookup gets HTTP 500 and every write fails. -/
def fenvFail : FetchEnv := ⟨fun _ => .resp 500 (.decoded "x"), fun _ => false⟩

/-- A database read side with no failures. -/
def denvOK : DBEnv := ⟨none, fun _ => none⟩

/-- A database read side whose candidate-selection query fails. -/
def denvBad : DBEnv := ⟨some "db down", fun _ => none⟩

/-! ### List and multiset helper lemmas -/

theorem mem_set_self {α : Type} :
    ∀ (l : List α) (i : Nat) (a : α), i < l.length → a ∈ l.set i a
  | [], i, a, h => absurd h (by simp)
  | b :: l, 0, a, _ => by simp [List.set]
  | b :: l, i + 1, a, h => by
    simp only [List.set]
    exact List.mem_cons_of_mem b (mem_set_self l i a (Nat.lt_of_succ_lt_succ h))

theorem map_eq_self_of {α : Type} (f : α → α) :
    ∀ (l : List α), (∀ a ∈ l, f a = a) → l.map f = l
  | [], _ => rfl
  | a :: l, h => by
    simp only [List.map_cons, h a (List.mem_cons_self a l),
      map_eq_self_of f l (fun b hb => h b (List.mem_cons_of_mem a hb))]

theorem busyList_set :
    ∀ (ws : List WorkerState) (i : Nat) (w w' : WorkerState), ws[i]? = some w →
      (↑(busyList (ws.set i w')) + ↑w.busy.toList : Multiset String)
        = ↑(busyList ws) + ↑w'.busy.toList
  | [], i, w, w', h => by simp at h
  | w₀ :: ws, 0, w, w', h => by
    simp only [List.getElem?_cons_zero, Option.some.injEq] at h
    subst h
    simp only [List.set, busyList, ← Multiset.coe_add]
    abel
  | w₀ :: ws, i + 1, w, w', h => by
    simp only [List.getElem?_cons_succ] at h
    have ih := busyList_set ws i w w' h
    simp only [List.set, busyList, ← Multiset.coe_add]
    simp only [← Multiset.coe_add] at ih
    calc (↑w₀.busy.toList + ↑(busyList (ws.set i w')) : Multiset String) + ↑w.busy.toList
        = ↑w₀.busy.toList + (↑(busyList (ws.set i w')) + ↑w.busy.toList) := by abel
      _ = ↑w₀.busy.toList + (↑(busyList ws) + ↑w'.busy.toList) := by rw [ih]
      _ = ↑w₀.busy.toList + ↑(busyList ws) + ↑w'.busy.toList := by abel

theorem busyList_eq_nil :
    ∀ (ws : List WorkerState), (∀ w ∈ ws, w.busy = none) → busyList ws = []
  | [], _ => rfl
  | w :: ws, h => by
    simp only [busyList, h w (List.mem_cons_self w ws), Option.toList_none, List.nil_append]
    exact busyList_eq_nil ws (fun w' hw' => h w' (List.mem_cons_of_mem w hw'))

/-! ### Lemmas about `fetchPoster` and the per-record view of the worker loop -/

theorem fetchPoster_ok_shape (http : String → HTTPResult) (imdbID url : String)
    (h : fetchPoster http imdbID = .ok url) : url ≠ "" ∧ (goToLower url) ≠ "n/a" := by
  cases hw : http (apiURL imdbID) with
  | netErr e =>
    simp only [fetchPoster, hw] at h
    exact absurd h (by simp)
  | resp statusCode body =>
    simp only [fetchPoster, hw] at h
    by_cases hs : statusCode ≠ 200
    · rw [if_pos hs] at h; exact absurd h (by simp)
    · rw [if_neg hs] at h
      cases body with
      | decodeErr e => exact absurd h (by simp)
      | decoded poster =>
        dsimp only at h
        by_cases hp : poster = "" ∨ (goToLower poster) = "n/a"
        · rw [if_pos hp] at h; exact absurd h (by simp)
        · rw [if_neg hp] at h
          simp only [Except.ok.injEq] at h
          subst h
          exact ⟨fun he => hp (Or.inl he), fun hn => hp (Or.inr hn)⟩

theorem workerStep_eq_map (fenv : FetchEnv) (db : List Movie) (imdbID : String) :
    workerStep fenv db imdbID = db.map (fun m => recordStep fenv m imdbID) := by
  unfold workerStep recordStep
  cases fetchPoster fenv.http imdbID with
  | error e => simp
  | ok posterURL =>
    unfold updatePosterInDB
    cases hw : fenv.writeOk imdbID <;> simp

theorem foldl_workerStep_map (fenv : FetchEnv) :
    ∀ (order : List String) (db : List Movie),
      order.foldl (workerStep fenv) db
        = db.map (fun m => order.foldl (recordStep fenv) m)
  | [], db => by simp
  | imdbID :: order, db => by
    simp only [List.foldl_cons, workerStep_eq_map,
      foldl_workerStep_map fenv order, List.map_map]
    rfl

theorem recordStep_fields (fenv : FetchEnv) (m : Movie) (imdbID : String) :
    (recordStep fenv m imdbID).imdbID = m.imdbID ∧
    (recordStep fenv m imdbID).title = m.title ∧
    (recordStep fenv m imdbID).year = m.year ∧
    (recordStep fenv m imdbID).rating = m.rating := by
  unfold recordStep
  cases fetchPoster fenv.http imdbID with
  | error e => simp
  | ok posterURL =>
    cases fenv.writeOk imdbID <;> by_cases hm : m.imdbID = imdbID <;> simp [hm]

theorem recordStep_eq_self_of_error (fenv : FetchEnv) (m : Movie) (imdbID : String)
    (e : GoError) (h : fetchPoster fenv.http imdbID = .error e) :
    recordStep fenv m imdbID = m := by
  unfold recordStep
  rw [h]

theorem recordStep_eq_self_of_ne (fenv : FetchEnv) (m : Movie) (imdbID : String)
    (h : m.imdbID ≠ imdbID) : recordStep fenv m imdbID = m := by
  unfold recordStep
  cases fetchPoster fenv.http imdbID with
  | error e => rfl
  | ok posterURL => cases fenv.writeOk imdbID <;> simp [h]

theorem foldl_recordStep_frame (fenv : FetchEnv) (imdbID : String) (e : GoError)
    (hfail : fetchPoster fenv.http imdbID = .error e) :
    ∀ (order : List String) (m : Movie), m.imdbID = imdbID →
      order.foldl (recordStep fenv) m = m
  | [], m, _ => rfl
  | id' :: order, m, hm => by
    have hstep : recordStep fenv m id' = m := by
      by_cases h : id' = imdbID
      · exact recordStep_eq_self_of_error fenv m id' e (h ▸ hfail)
      · exact recordStep_eq_self_of_ne fenv m id' (by rw [hm]; exact fun hc => h hc.symm)
    simp only [List.foldl_cons, hstep]
    exact foldl_recordStep_frame fenv imdbID e hfail order m hm

theorem foldl_recordStep_poster (fenv : FetchEnv) :
    ∀ (order : List String) (m : Movie),
      (order.foldl (recordStep fenv) m).poster = m.poster ∨
      ∃ imdbID url, fetchPoster fenv.http imdbID = .ok url ∧
        (order.foldl (recordStep fenv) m).poster = some url
  | [], m => Or.inl rfl
  | id' :: order, m => by
    have hstep : (recordStep fenv m id').poster = m.poster ∨
        ∃ url, fetchPoster fenv.http id' = .ok url ∧
          (recordStep fenv m id').poster = some url := by
      unfold recordStep
      cases hf : fetchPoster fenv.http id' with
      | error e => exact Or.inl rfl
      | ok posterURL =>
        cases fenv.writeOk id' with
        | false => exact Or.inl (by simp)
        | true =>
          by_cases hm : m.imdbID = id'
          · exact Or.inr ⟨posterURL, rfl, by simp [hm]⟩
          · exact Or.inl (by simp [hm])
    rcases foldl_recordStep_poster fenv order (recordStep fenv m id') with h | ⟨i2, u2, hf2, hp2⟩
    · simp only [List.foldl_cons]
      rcases hstep with h1 | ⟨url, hu, hp⟩
      · exact Or.inl (h.trans h1)
      · exact Or.inr ⟨id', url, hu, h.trans hp⟩
    · exact Or.inr ⟨i2, u2, hf2, by simpa using hp2⟩

theorem foldl_recordStep_none (fenv : FetchEnv) :
    ∀ (order : List String), (∀ id ∈ order, (∃ u, fetchPoster fenv.http id = .ok u) ∧
        fenv.writeOk id = true) →
      ∀ (m : Movie), (m.poster = none → m.imdbID ∈ order) →
        (order.foldl (recordStep fenv) m).poster ≠ none
  | [], _, m, hm => fun hnone => by simpa using hm hnone
  | id' :: order, henv, m, hm => by
    have hrec := henv id' (List.mem_cons_self id' order)
    obtain ⟨⟨u, hu⟩, hw⟩ := hrec
    have hnext : (recordStep fenv m id').poster = none →
        (recordStep fenv m id').imdbID ∈ order := by
      intro hnone
      have hid : (recordStep fenv m id').imdbID = m.imdbID := (recordStep_fields fenv m id').1
      by_cases hmid : m.imdbID = id'
      · exfalso
        simp [recordStep, hu, hw, hmid] at hnone
      · have hself : recordStep fenv m id' = m := recordStep_eq_self_of_ne fenv m id' hmid
        rw [hself] at hnone ⊢
        rcases List.mem_cons.mp (hm hnone) with hc | hc
        · exact absurd hc hmid
        · exact hc
    simp only [List.foldl_cons]
    exact foldl_recordStep_none fenv order
      (fun id hid => henv id (List.mem_cons_of_mem id' hid)) (recordStep fenv m id') hnext

/-! ### Lemmas about the selection phase -/

theorem scanRows_ok (scanErr : Nat → Option GoError) :
    ∀ (k : Nat) (rows ids : List String), scanRows scanErr k rows = .ok ids → ids = rows
  | k, [], ids, h => by
    unfold scanRows at h
    simpa using h.symm
  | k, imdbID :: rest, ids, h => by
    unfold scanRows at h
    cases hs : scanErr k with
    | some e => rw [hs] at h; exact absurd h (by simp)
    | none =>
      rw [hs] at h
      cases hr : scanRows scanErr (k + 1) rest with
      | error e => rw [hr] at h; exact absurd h (by simp)
      | ok ids' =>
        rw [hr] at h
        simp only [Except.ok.injEq] at h
        rw [← h, scanRows_ok scanErr (k + 1) rest ids' hr]

theorem selectPhase_ok (denv : DBEnv) (db : List Movie) (limit : Int)
    (ids : List String) (h : selectPhase denv db limit = .ok ids) :
    ids = selectMissingPosters db limit := by
  unfold selectPhase at h
  cases hq : denv.queryErr with
  | some e => rw [hq] at h; exact absurd h (by simp)
  | none =>
    rw [hq] at h
    exact scanRows_ok denv.scanErr 0 (selectMissingPosters db limit) ids h

/-! ### The dispatch-machine invariant is preserved by every step -/

theorem busyList_replicate :
    ∀ n : Nat, busyList (List.replicate n { busy := none, finished := false }) = []
  | 0 => rfl
  | n + 1 => by
    simp only [List.replicate, busyList, Option.toList_none, List.nil_append]
    exact busyList_replicate n

theorem get?_some_lt {α : Type} :
    ∀ (l : List α) (i : Nat) (a : α), l[i]? = some a → i < l.length
  | [], i, a, h => by simp at h
  | b :: l, 0, a, h => by simp
  | b :: l, i + 1, a, h => by
    simp only [List.getElem?_cons_succ] at h
    exact Nat.succ_lt_succ (get?_some_lt l i a h)

theorem inv_init (fenv : FetchEnv) (imdbIDs : List String) (db0 : List Movie) (wc : Int) :
    Inv fenv imdbIDs db0 wc (initState imdbIDs wc db0) := by
  refine ⟨?_, ?_, ?_, ?_, ?_, ?_, ?_, ?_, ?_⟩
  · simp [initState, busyList_replicate]
  · simp [initState]
  · intro hc; simp [initState] at hc
  · intro w hw hf
    simp only [initState, List.mem_replicate] at hw
    rw [hw.2] at hf
    simp at hf
  · intro w hw hf
    simp only [initState, List.mem_replicate] at hw
    rw [hw.2] at hf
    simp at hf
  · intro hc; simp [initState] at hc
  · simp [initState]
  · intro hr; simp [initState] at hr
  · intro _; simp [initState]

theorem inv_send (fenv : FetchEnv) (imdbIDs : List String) (db0 : List Movie)
    (wc : Int) (s s' : DispatchState) (hI : Inv fenv imdbIDs db0 wc s)
    (h : doAction fenv imdbIDs s Action.send = some s') : Inv fenv imdbIDs db0 wc s' := by
  cases hp : s.pending with
  | nil => simp [doAction, hp] at h
  | cons imdbID rest =>
    simp only [doAction, hp] at h
    by_cases hb : s.buffer.length < chanCapacity imdbIDs
    · rw [if_pos hb] at h
      simp only [Option.some.injEq] at h
      subst h
      have hcl : s.closed = false := by
        cases hc : s.closed
        · rfl
        · have := hI.closed_pending hc
          rw [hp] at this
          exact absurd this (by simp)
      refine ⟨?_, hI.wlen, ?_, hI.fin_not_busy, hI.fin_closed, ?_, hI.db_eq, ?_,
        hI.no_worker_no_processed⟩
      · have hperm := hI.perm
        rw [hp] at hperm
        show (↑rest + ↑(s.buffer ++ [imdbID]) + ↑(busyList s.workers) + ↑s.processed
            : Multiset String) = ↑imdbIDs
        rw [← hperm]
        simp only [← Multiset.coe_add, ← Multiset.cons_coe, ← Multiset.singleton_add]
        abel
      · intro hc
        rw [hcl] at hc
        simp at hc
      · intro hc
        rw [hcl] at hc
        simp at hc
      · intro hr
        have := (hI.ret_spec hr).1
        rw [hcl] at this
        simp at this
    · rw [if_neg hb] at h
      simp at h

theorem inv_close (fenv : FetchEnv) (imdbIDs : List String) (db0 : List Movie)
    (wc : Int) (s s' : DispatchState) (hI : Inv fenv imdbIDs db0 wc s)
    (h : doAction fenv imdbIDs s Action.close = some s') : Inv fenv imdbIDs db0 wc s' := by
  simp only [doAction] at h
  by_cases hc : s.pending = [] ∧ s.closed = false
  · rw [if_pos hc] at h
    simp only [Option.some.injEq] at h
    subst h
    obtain ⟨hpend, hclosed⟩ := hc
    refine ⟨hI.perm, hI.wlen, fun _ => hpend, hI.fin_not_busy, fun _ _ _ => rfl, ?_,
      hI.db_eq, ?_, hI.no_worker_no_processed⟩
    · intro _ hne hall
      exfalso
      cases hwk : s.workers with
      | nil => exact hne hwk
      | cons w ws =>
        have hmem : w ∈ s.workers := by rw [hwk]; exact List.mem_cons_self w ws
        have hfin := hall w hmem
        have := hI.fin_closed w hmem hfin
        rw [hclosed] at this
        simp at this
    · intro hr
      have := (hI.ret_spec hr).1
      rw [hclosed] at this
      simp at this
  · rw [if_neg hc] at h
    simp at h

theorem inv_recv (fenv : FetchEnv) (imdbIDs : List String) (db0 : List Movie)
    (wc : Int) (s s' : DispatchState) (i : Nat) (hI : Inv fenv imdbIDs db0 wc s)
    (h : doAction fenv imdbIDs s (Action.recv i) = some s') : Inv fenv imdbIDs db0 wc s' := by
  cases hwi : s.workers[i]? with
  | none => simp [doAction, hwi] at h
  | some w =>
    cases hb : s.buffer with
    | nil => simp [doAction, hwi, hb] at h
    | cons imdbID rest =>
      simp only [doAction, hwi, hb] at h
      by_cases hcond : w.busy = none ∧ w.finished = false
      · rw [if_pos hcond] at h
        simp only [Option.some.injEq] at h
        subst h
        obtain ⟨hbusy, hfin⟩ := hcond
        have hlt : i < s.workers.length := get?_some_lt _ _ _ hwi
        refine ⟨?_, ?_, hI.closed_pending, ?_, ?_, ?_, hI.db_eq, ?_, ?_⟩
        · have hset := busyList_set s.workers i w { busy := some imdbID, finished := false } hwi
          rw [hbusy] at hset
          simp only [Option.toList_some, Option.toList_none, Multiset.coe_nil,
            Multiset.coe_singleton, add_zero] at hset
          have hperm := hI.perm
          rw [hb] at hperm
          show (↑s.pending + ↑rest
              + ↑(busyList (s.workers.set i { busy := some imdbID, finished := false }))
              + ↑s.processed : Multiset String) = ↑imdbIDs
          rw [← hperm, hset]
          simp only [← Multiset.cons_coe, ← Multiset.singleton_add]
          abel
        · show (s.workers.set i _).length = wc.toNat
          rw [List.length_set]
          exact hI.wlen
        · intro w' hw' hf'
          rcases List.mem_or_eq_of_mem_set hw' with hmem | heq
          · exact hI.fin_not_busy w' hmem hf'
          · rw [heq] at hf'; simp at hf'
        · intro w' hw' hf'
          rcases List.mem_or_eq_of_mem_set hw' with hmem | heq
          · exact hI.fin_closed w' hmem hf'
          · rw [heq] at hf'; simp at hf'
        · intro _ _ hall
          exfalso
          have := hall _ (mem_set_self s.workers i { busy := some imdbID, finished := false } hlt)
          simp at this
        · intro hr
          exfalso
          have := (hI.ret_spec hr).2 w (List.getElem?_mem hwi)
          rw [hfin] at this
          simp at this
        · intro hnil
          exfalso
          have hl := congrArg List.length hnil
          simp only [List.length_set, List.length_nil] at hl
          omega
      · rw [if_neg hcond] at h
        simp at h

theorem inv_work (fenv : FetchEnv) (imdbIDs : List String) (db0 : List Movie)
    (wc : Int) (s s' : DispatchState) (i : Nat) (hI : Inv fenv imdbIDs db0 wc s)
    (h : doAction fenv imdbIDs s (Action.work i) = some s') : Inv fenv imdbIDs db0 wc s' := by
  cases hwi : s.workers[i]? with
  | none => simp [doAction, hwi] at h
  | some w =>
    cases hbusy : w.busy with
    | none => simp [doAction, hwi, hbusy] at h
    | some imdbID =>
      simp only [doAction, hwi, hbusy] at h
      by_cases hfin : w.finished = false
      · rw [if_pos hfin] at h
        simp only [Option.some.injEq] at h
        subst h
        have hlt : i < s.workers.length := get?_some_lt _ _ _ hwi
        refine ⟨?_, ?_, hI.closed_pending, ?_, ?_, ?_, ?_, ?_, ?_⟩
        · have hset := busyList_set s.workers i w { busy := none, finished := false } hwi
          rw [hbusy] at hset
          simp only [Option.toList_some, Option.toList_none, Multiset.coe_nil,
            Multiset.coe_singleton, add_zero] at hset
          have hperm := hI.perm
          show (↑s.pending + ↑s.buffer
              + ↑(busyList (s.workers.set i { busy := none, finished := false }))
              + ↑(s.processed ++ [imdbID]) : Multiset String) = ↑imdbIDs
          rw [← hperm, ← hset]
          simp only [← Multiset.coe_add, ← Multiset.cons_coe, ← Multiset.singleton_add,
            Multiset.coe_nil]
          abel
        · show (s.workers.set i _).length = wc.toNat
          rw [List.length_set]
          exact hI.wlen
        · intro w' hw' hf'
          rcases List.mem_or_eq_of_mem_set hw' with hmem | heq
          · exact hI.fin_not_busy w' hmem hf'
          · rw [heq]
        · intro w' hw' hf'
          rcases List.mem_or_eq_of_mem_set hw' with hmem | heq
          · exact hI.fin_closed w' hmem hf'
          · rw [heq] at hf'; simp at hf'
        · intro _ _ hall
          exfalso
          have := hall _ (mem_set_self s.workers i { busy := none, finished := false } hlt)
          simp at this
        · show workerStep fenv s.db imdbID
            = (s.processed ++ [imdbID]).foldl (workerStep fenv) db0
          rw [List.foldl_append, List.foldl_cons, List.foldl_nil, ← hI.db_eq]
        · intro hr
          exfalso
          have := (hI.ret_spec hr).2 w (List.getElem?_mem hwi)
          rw [this] at hfin
          simp at hfin
        · intro hnil
          exfalso
          have hl := congrArg List.length hnil
          simp only [List.length_set, List.length_nil] at hl
          omega
      · rw [if_neg hfin] at h
        simp at h

theorem inv_exitLoop (fenv : FetchEnv) (imdbIDs : List String) (db0 : List Movie)
    (wc : Int) (s s' : DispatchState) (i : Nat) (hI : Inv fenv imdbIDs db0 wc s)
    (h : doAction fenv imdbIDs s (Action.exitLoop i) = some s') :
    Inv fenv imdbIDs db0 wc s' := by
  cases hwi : s.workers[i]? with
  | none => simp [doAction, hwi] at h
  | some w =>
    simp only [doAction, hwi] at h
    by_cases hcond : w.busy = none ∧ w.finished = false ∧ s.closed = true ∧ s.buffer = []
    · rw [if_pos hcond] at h
      simp only [Option.some.injEq] at h
      subst h
      obtain ⟨hbusy, hfin, hclosed, hbuf⟩ := hcond
      have hlt : i < s.workers.length := get?_some_lt _ _ _ hwi
      refine ⟨?_, ?_, hI.closed_pending, ?_, fun _ _ _ => hclosed, fun _ _ _ => hbuf,
        hI.db_eq, ?_, ?_⟩
      · have hset := busyList_set s.workers i w { busy := none, finished := true } hwi
        rw [hbusy] at hset
        simp only [Option.toList_none, Multiset.coe_nil, add_zero] at hset
        show (↑s.pending + ↑s.buffer
            + ↑(busyList (s.workers.set i { busy := none, finished := true }))
            + ↑s.processed : Multiset String) = ↑imdbIDs
        rw [hset]
        exact hI.perm
      · show (s.workers.set i _).length = wc.toNat
        rw [List.length_set]
        exact hI.wlen
      · intro w' hw' hf'
        rcases List.mem_or_eq_of_mem_set hw' with hmem | heq
        · exact hI.fin_not_busy w' hmem hf'
        · rw [heq]
      · intro hr
        exfalso
        have := (hI.ret_spec hr).2 w (List.getElem?_mem hwi)
        rw [this] at hfin
        simp at hfin
      · intro hnil
        exfalso
        have hl := congrArg List.length hnil
        simp only [List.length_set, List.length_nil] at hl
        omega
    · rw [if_neg hcond] at h
      simp at h

theorem inv_ret (fenv : FetchEnv) (imdbIDs : List String) (db0 : List Movie)
    (wc : Int) (s s' : DispatchState) (hI : Inv fenv imdbIDs db0 wc s)
    (h : doAction fenv imdbIDs s Action.ret = some s') : Inv fenv imdbIDs db0 wc s' := by
  simp only [doAction] at h
  by_cases hc : s.closed = true ∧ (∀ w ∈ s.workers, w.finished = true) ∧ s.returned = false
  · rw [if_pos hc] at h
    simp only [Option.some.injEq] at h
    subst h
    exact ⟨hI.perm, hI.wlen, hI.closed_pending, hI.fin_not_busy, hI.fin_closed,
      hI.all_fin_buffer, hI.db_eq, fun _ => ⟨hc.1, hc.2.1⟩, hI.no_worker_no_processed⟩
  · rw [if_neg hc] at h
    simp at h

theorem inv_doAction (fenv : FetchEnv) (imdbIDs : List String) (db0 : List Movie)
    (wc : Int) (s s' : DispatchState) (a : Action) (hI : Inv fenv imdbIDs db0 wc s)
    (h : doAction fenv imdbIDs s a = some s') : Inv fenv imdbIDs db0 wc s' := by
  cases a with
  | send => exact inv_send fenv imdbIDs db0 wc s s' hI h
  | close => exact inv_close fenv imdbIDs db0 wc s s' hI h
  | recv i => exact inv_recv fenv imdbIDs db0 wc s s' i hI h
  | work i => exact inv_work fenv imdbIDs db0 wc s s' i hI h
  | exitLoop i => exact inv_exitLoop fenv imdbIDs db0 wc s s' i hI h
  | ret => exact inv_ret fenv imdbIDs db0 wc s s' hI h

theorem inv_runActions (fenv : FetchEnv) (imdbIDs : List String) (db0 : List Movie)
    (wc : Int) :
    ∀ (acts : List Action) (s s' : DispatchState), Inv fenv imdbIDs db0 wc s →
      runActions fenv imdbIDs s acts = some s' → Inv fenv imdbIDs db0 wc s'
  | [], s, s', hI, h => by
    simp only [runActions, Option.some.injEq] at h
    rwa [← h]
  | a :: acts, s, s', hI, h => by
    simp only [runActions] at h
    cases hd : doAction fenv imdbIDs s a with
    | none => rw [hd] at h; simp at h
    | some s1 =>
      rw [hd] at h
      exact inv_runActions fenv imdbIDs db0 wc acts s1 s'
        (inv_doAction fenv imdbIDs db0 wc s s1 a hI hd) h

theorem inv_reach (fenv : FetchEnv) (imdbIDs : List String) (db : List Movie)
    (wc : Int) (s : DispatchState) (h : Reach fenv imdbIDs wc db s) :
    Inv fenv imdbIDs db wc s := by
  obtain ⟨acts, hrun⟩ := h
  exact inv_runActions fenv imdbIDs db wc acts _ s (inv_init fenv imdbIDs db wc) hrun

/-! ### Facts about completed runs -/

theorem returned_state (fenv : FetchEnv) (imdbIDs : List String) (db : List Movie)
    (wc : Int) (s : DispatchState) (h : Reach fenv imdbIDs wc db s)
    (hret : s.returned = true) :
    s.db = s.processed.foldl (workerStep fenv) db ∧
    (1 ≤ wc → s.processed.Perm imdbIDs) ∧
    (wc ≤ 0 → s.processed = [] ∧ s.db = db) := by
  have hI := inv_reach fenv imdbIDs db wc s h
  obtain ⟨hclosed, hallfin⟩ := hI.ret_spec hret
  refine ⟨hI.db_eq, ?_, ?_⟩
  · intro hwc
    have hne : s.workers ≠ [] := by
      intro hnil
      have hw := hI.wlen
      rw [hnil] at hw
      simp only [List.length_nil] at hw
      omega
    have hbuf := hI.all_fin_buffer hclosed hne hallfin
    have hpend := hI.closed_pending hclosed
    have hbusy : busyList s.workers = [] :=
      busyList_eq_nil s.workers (fun w hw => hI.fin_not_busy w hw (hallfin w hw))
    have hperm := hI.perm
    rw [hpend, hbuf, hbusy] at hperm
    simp only [Multiset.coe_nil, zero_add] at hperm
    exact Multiset.coe_eq_coe.mp hperm
  · intro hwc
    have hnil : s.workers = [] := by
      have hw := hI.wlen
      have h0 : wc.toNat = 0 := by omega
      rw [h0] at hw
      exact List.length_eq_zero.mp hw
    have hproc := hI.no_worker_no_processed hnil
    exact ⟨hproc, by rw [hI.db_eq, hproc, List.foldl_nil]⟩

theorem fpc_final_db (denv : DBEnv) (fenv : FetchEnv) (db : List Movie) (wc limit : Int)
    (db' : List Movie) (att : List String) (err : Option GoError)
    (h : fetchPostersConcurrently denv fenv db wc limit db' att err) :
    db' = att.foldl (workerStep fenv) db := by
  cases h with
  | selectFail e hsel => simp
  | dispatched imdbIDs acts s hsel hrun hret =>
    exact (returned_state fenv imdbIDs db wc s ⟨acts, hrun⟩ hret).1

theorem fpc_positional (denv : DBEnv) (fenv : FetchEnv) (db : List Movie) (wc limit : Int)
    (db' : List Movie) (att : List String) (err : Option GoError)
    (h : fetchPostersConcurrently denv fenv db wc limit db' att err) (i : Nat) :
    db'[i]? = (db[i]?).map (fun m => att.foldl (recordStep fenv) m) := by
  rw [fpc_final_db denv fenv db wc limit db' att err h, foldl_workerStep_map,
    List.getElem?_map]

theorem fpc_err_char (denv : DBEnv) (fenv : FetchEnv) (db : List Movie) (wc limit : Int)
    (db' : List Movie) (att : List String) (err : Option GoError)
    (h : fetchPostersConcurrently denv fenv db wc limit db' att err) :
    (err ≠ none ↔ ∃ e, selectPhase denv db limit = .error e) ∧
    (err ≠ none → db' = db ∧ att = []) := by
  cases h with
  | selectFail e hsel =>
    exact ⟨⟨fun _ => ⟨e, hsel⟩, fun _ => by simp⟩, fun _ => ⟨rfl, rfl⟩⟩
  | dispatched imdbIDs acts s hsel hrun hret =>
    constructor
    · constructor
      · intro hne
        exact absurd rfl hne
      · rintro ⟨e, he⟩
        rw [hsel] at he
        exact absurd he (by simp)
    · intro hne
      exact absurd rfl hne

theorem fpc_attempts (denv : DBEnv) (fenv : FetchEnv) (db : List Movie) (wc limit : Int)
    (db' : List Movie) (att : List String) (err : Option GoError) (imdbIDs : List String)
    (h : fetchPostersConcurrently denv fenv db wc limit db' att err)
    (hsel : selectPhase denv db limit = .ok imdbIDs) :
    err = none ∧ (1 ≤ wc → att.Perm imdbIDs) ∧ (wc ≤ 0 → att = [] ∧ db' = db) := by
  cases h with
  | selectFail e hsel2 =>
    rw [hsel] at hsel2
    exact absurd hsel2 (by simp)
  | dispatched ids2 acts s hsel2 hrun hret =>
    rw [hsel] at hsel2
    simp only [Except.ok.injEq] at hsel2
    subst hsel2
    have hr := returned_state fenv _ db wc s ⟨acts, hrun⟩ hret
    exact ⟨rfl, hr.2.1, fun hwc => ⟨(hr.2.2 hwc).1, (hr.2.2 hwc).2⟩⟩

/-! ### Claims -/

/-- C3: `fetchPoster` classifies each lookup response as follows: any HTTP
status other than 200 yields an error whose message depends only on the
status code (so the body is never consulted); a 200 response whose decoded
`Poster` field is absent-or-empty (Go's JSON decoder maps an absent field
to `""`) or equals `"n/a"` case-insensitively yields the not-found error;
otherwise the `Poster` field is returned verbatim with no error. -/
theorem fetchPoster_classification (http : String → HTTPResult) (imdbID : String) :
    (∀ statusCode body, http (apiURL imdbID) = .resp statusCode body → statusCode ≠ 200 →
      fetchPoster http imdbID
        = .error ("unexpected status code: " ++ toString statusCode)) ∧
    (∀ poster, http (apiURL imdbID) = .resp 200 (.decoded poster) →
      poster = "" ∨ (goToLower poster) = "n/a" →
      fetchPoster http imdbID = .error "poster not found") ∧
    (∀ poster, http (apiURL imdbID) = .resp 200 (.decoded poster) →
      poster ≠ "" → (goToLower poster) ≠ "n/a" →
      fetchPoster http imdbID = .ok poster) := by
  refine ⟨?_, ?_, ?_⟩
  · intro statusCode body hw hs
    simp only [fetchPoster, hw]
    rw [if_pos hs]
  · intro poster hw hp
    simp only [fetchPoster, hw]
    rw [if_neg (by simp)]
    rw [if_pos hp]
  · intro poster hw hne hnl
    simp only [fetchPoster, hw]
    rw [if_neg (by simp)]
    rw [if_neg (by exact fun hor => hor.elim hne hnl)]

/-- Witness for C3 at concrete inputs: a 200/"http:u" response resolves
verbatim, a 200/"N/A" response is not-found, a 500 response is an error. -/
theorem fetchPoster_classification_witness :
    fetchPoster (fun _ => .resp 200 (.decoded "http:u")) "tt1" = .ok "http:u" ∧
    fetchPoster (fun _ => .resp 200 (.decoded "N/A")) "tt1" = .error "poster not found" ∧
    fetchPoster (fun _ => .resp 500 (.decoded "http:u")) "tt1"
      = .error ("unexpected status code: " ++ toString 500) :=
  ⟨(fetchPoster_classification (fun _ => .resp 200 (.decoded "http:u")) "tt1").2.2
      "http:u" rfl (by decide) (by decide),
   (fetchPoster_classification (fun _ => .resp 200 (.decoded "N/A")) "tt1").2.1
      "N/A" rfl (by decide),
   (fetchPoster_classification (fun _ => .resp 500 (.decoded "http:u")) "tt1").1
      500 (.decoded "http:u") rfl (by decide)⟩

/-- C5: for every limit L ≥ 0 the candidate selection returns at most L
identifiers, each belonging to a record whose `Poster` was NULL at read
time, and for L = 0 it returns the empty sequence. -/
theorem selectMissingPosters_spec (db : List Movie) (limit : Int) (hL : 0 ≤ limit) :
    ((selectMissingPosters db limit).length : Int) ≤ limit ∧
    (∀ id ∈ selectMissingPosters db limit, ∃ m ∈ db, m.imdbID = id ∧ m.poster = none) ∧
    (limit = 0 → selectMissingPosters db limit = []) := by
  have hneg : ¬limit < 0 := not_lt.mpr hL
  refine ⟨?_, ?_, ?_⟩
  · unfold selectMissingPosters sqlLimit
    rw [if_neg hneg]
    have h1 : (List.take limit.toNat ((db.filter (fun m => m.poster.isNone)).map
        (fun m => m.imdbID))).length ≤ limit.toNat := by
      rw [List.length_take]
      exact min_le_left _ _
    omega
  · intro id hid
    unfold selectMissingPosters sqlLimit at hid
    rw [if_neg hneg] at hid
    have hid' := List.take_subset _ _ hid
    obtain ⟨m, hm, rfl⟩ := List.mem_map.mp hid'
    have hmf := List.mem_filter.mp hm
    exact ⟨m, hmf.1, rfl, Option.isNone_iff_eq_none.mp hmf.2⟩
  · intro h0
    subst h0
    unfold selectMissingPosters sqlLimit
    simp

/-- Witness for C5 at concrete inputs: on the two-row sample table a limit
of 1 selects at most one id, and a limit of 0 selects nothing. -/
theorem selectMissingPosters_spec_witness :
    ((selectMissingPosters dbSample 1).length : Int) ≤ 1 ∧
    selectMissingPosters dbSample 0 = [] :=
  ⟨(selectMissingPosters_spec dbSample 1 (by decide)).1,
   (selectMissingPosters_spec dbSample 0 (by decide)).2.2 rfl⟩

/-- C6: when the `UPDATE` statement executes, `updatePosterInDB` returns no
error, keeps the table length, rewrites exactly the rows whose identifier
matches (changing only their `Poster` field) and leaves every other row
untouched; when no row matches it changes nothing and still returns no
error (it never inspects `RowsAffected`). -/
theorem updatePosterInDB_frame (db : List Movie) (imdbID posterURL : String) :
    (updatePosterInDB true db imdbID posterURL).2 = none ∧
    (updatePosterInDB true db imdbID posterURL).1.length = db.length ∧
    (∀ i : Nat, (updatePosterInDB true db imdbID posterURL).1[i]?
        = (db[i]?).map (fun m =>
            if m.imdbID = imdbID then { m with poster := some posterURL } else m)) ∧
    ((∀ m ∈ db, m.imdbID ≠ imdbID) → (updatePosterInDB true db imdbID posterURL).1 = db) := by
  refine ⟨rfl, ?_, ?_, ?_⟩
  · simp [updatePosterInDB]
  · intro i
    simp [updatePosterInDB, List.getElem?_map]
  · intro hno
    show db.map _ = db
    exact map_eq_self_of _ db (fun m hm => by rw [if_neg (hno m hm)])

/-- Witness for C6 at concrete inputs: updating `"tt1"` on the sample table
reports no error and touches only the matching row; updating a table with
no matching row leaves it unchanged. -/
theorem updatePosterInDB_frame_witness :
    (updatePosterInDB true dbSample "tt1" "http:u").2 = none ∧
    (updatePosterInDB true [mB] "tt1" "http:u").1 = [mB] :=
  ⟨(updatePosterInDB_frame dbSample "tt1" "http:u").1,
   (updatePosterInDB_frame [mB] "tt1" "http:u").2.2.2 (by decide)⟩

/-- C1: for every database state, worker count and limit, a run of
`fetchPostersConcurrently` returns a non-nil error exactly when the
candidate-selection query (or scanning its rows) fails before dispatch —
in which case nothing was fetched and the database is untouched; whenever
selection succeeds the run returns nil, for every fetch/persist
environment (in particular even when every per-item fetch or poster write
fails). -/
theorem fetchPostersConcurrently_error_only_selectPhase
    (denv : DBEnv) (fenv : FetchEnv) (db : List Movie) (workerCount limit : Int)
    (db' : List Movie) (att : List String) (err : Option GoError)
    (h : fetchPostersConcurrently denv fenv db workerCount limit db' att err) :
    (err ≠ none ↔ ∃ e, selectPhase denv db limit = .error e) ∧
    (err ≠ none → db' = db ∧ att = []) ∧
    (∀ imdbIDs, selectPhase denv db limit = .ok imdbIDs → err = none) := by
  have hc := fpc_err_char denv fenv db workerCount limit db' att err h
  refine ⟨hc.1, hc.2, ?_⟩
  intro imdbIDs hsel
  exact (fpc_attempts denv fenv db workerCount limit db' att err imdbIDs h hsel).1

/-- Witness for C1 at concrete inputs: with a failing selection query the
run returns exactly the query error (here in an environment where every
fetch and every write would fail anyway), and with a working selection a
run returns nil. -/
theorem fetchPostersConcurrently_error_only_selectPhase_witness :
    (dbSample = dbSample ∧ ([] : List String) = []) ∧
    (none : Option GoError) = none :=
  ⟨(fetchPostersConcurrently_error_only_selectPhase denvBad fenvFail dbSample 3 5
      dbSample [] (some "db down") (.selectFail "db down" (by rfl))).2.1
      (by simp),
   (fetchPostersConcurrently_error_only_selectPhase denvOK fenvFail dbSample 1 1
      dbSample ["tt1"] none
      (.dispatched ["tt1"] [.send, .close, .recv 0, .work 0, .exitLoop 0, .ret]
        { pending := [], buffer := [], closed := true,
          workers := [{ busy := none, finished := true }], db := dbSample,
          processed := ["tt1"], returned := true } (by rfl) (by rfl) (by rfl))).2.2
      ["tt1"] rfl⟩

/-- C9: a run with `workerCount = 0` and any (also nonempty) selection
still returns nil, performs zero fetch attempts and zero writes, leaving
the database untouched; the CLI trigger shields users from this by always
passing the hardcoded worker count 3. -/
theorem fetchPostersConcurrently_zero_workers
    (denv : DBEnv) (fenv : FetchEnv) (db : List Movie) (limit : Int)
    (db' : List Movie) (att : List String) (err : Option GoError) (imdbIDs : List String)
    (h : fetchPostersConcurrently denv fenv db 0 limit db' att err)
    (hsel : selectPhase denv db limit = .ok imdbIDs) (_hne : imdbIDs ≠ []) :
    err = none ∧ att = [] ∧ db' = db ∧ cliWorkerCount = 3 ∧
    handleFetchPostersCLI denv fenv db limit = fetchPostersConcurrently denv fenv db 3 limit := by
  have hatt := fpc_attempts denv fenv db 0 limit db' att err imdbIDs h hsel
  exact ⟨hatt.1, (hatt.2.2 (le_refl 0)).1, (hatt.2.2 (le_refl 0)).2, rfl, rfl⟩

/-- Witness for C9 at concrete inputs: a zero-worker run over the sample
table with one selected id returns nil with no attempt and no change. -/
theorem fetchPostersConcurrently_zero_workers_witness :
    (none : Option GoError) = none ∧ ([] : List String) = [] ∧ dbSample = dbSample ∧
    cliWorkerCount = 3 := by
  have h := fetchPostersConcurrently_zero_workers denvOK fenvOK dbSample 1
    dbSample [] none ["tt1"]
    (.dispatched ["tt1"] [.send, .close, .ret]
      { pending := [], buffer := ["tt1"], closed := true, workers := [],
        db := dbSample, processed := [], returned := true } (by rfl) (by rfl) (by rfl))
    rfl (by decide)
  exact ⟨h.1, h.2.1, h.2.2.1, h.2.2.2.1⟩

/-- C2 counterexample: the claim quantifies over every worker count, but a
run with `workerCount = 0` over a nonempty selection (here M = 1) performs
zero fetch attempts instead of exactly M — the deadlock is avoided only
because the channel's capacity equals the item count, so the producer's
sends and the close still complete and `wg.Wait()` returns at once. -/
theorem fetchPostersConcurrently_attempts_cex :
    fetchPostersConcurrently denvOK fenvOK dbSample 0 1 dbSample [] none ∧
    selectPhase denvOK dbSample 1 = .ok ["tt1"] ∧
    ([] : List String).length ≠ (["tt1"] : List String).length :=
  ⟨.dispatched ["tt1"] [.send, .close, .ret]
      { pending := [], buffer := ["tt1"], closed := true, workers := [],
        db := dbSample, processed := [], returned := true } (by rfl) (by rfl) (by rfl),
   rfl, by decide⟩

/-- C2 (amended): for every run of `fetchPostersConcurrently` with `W ≥ 1`
workers over M selected identifiers (M ≥ 0), exactly M fetch attempts
occur in total; no identifier is passed to `fetchPoster` more than once
provided the selected identifiers are distinct (the spec's data model
declares record identifiers unique); and if M = 0 the run completes with
zero fetch attempts and no error. -/
theorem fetchPostersConcurrently_attempts_exact
    (denv : DBEnv) (fenv : FetchEnv) (db : List Movie) (workerCount limit : Int)
    (db' : List Movie) (att : List String) (err : Option GoError) (imdbIDs : List String)
    (h : fetchPostersConcurrently denv fenv db workerCount limit db' att err)
    (hW : 1 ≤ workerCount)
    (hsel : selectPhase denv db limit = .ok imdbIDs) :
    att.length = imdbIDs.length ∧
    (imdbIDs.Nodup → ∀ imdbID, att.count imdbID ≤ 1) ∧
    (imdbIDs = [] → att = []) ∧
    err = none := by
  have hatt := fpc_attempts denv fenv db workerCount limit db' att err imdbIDs h hsel
  have hperm := hatt.2.1 hW
  refine ⟨hperm.length_eq, ?_, ?_, hatt.1⟩
  · intro hnd imdbID
    exact List.nodup_iff_count_le_one.mp (hperm.symm.nodup hnd) imdbID
  · intro hids
    subst hids
    have := hperm.length_eq
    simp only [List.length_nil] at this
    exact List.length_eq_zero.mp this

/-- Witness for the amended C2 at concrete inputs: a one-worker run over
the two selected sample ids attempts both exactly once and returns nil. -/
theorem fetchPostersConcurrently_attempts_exact_witness :
    (["tt1", "tt2"] : List String).length = 2 ∧
    (["tt1", "tt2"] : List String).count "tt1" ≤ 1 ∧
    (none : Option GoError) = none := by
  have h := fetchPostersConcurrently_attempts_exact denvOK fenvOK dbSample 1 2
    [mAp, mBp] ["tt1", "tt2"] none ["tt1", "tt2"]
    (.dispatched ["tt1", "tt2"]
      [.send, .send, .close, .recv 0, .work 0, .recv 0, .work 0, .exitLoop 0, .ret]
      { pending := [], buffer := [], closed := true,
        workers := [{ busy := none, finished := true }], db := [mAp, mBp],
        processed := ["tt1", "tt2"], returned := true } (by rfl) (by rfl) (by rfl))
    (by decide) rfl
  exact ⟨h.1, h.2.1 (by decide) "tt1", h.2.2.2⟩

/-- C8: in every reachable state of the dispatch phase, the work channel's
capacity equals the number of selected identifiers; whenever the producer
still has an identifier to send, the buffer is strictly below capacity, so
the send is enabled (no send ever blocks); the channel is closed only
after all identifiers have been sent; and the function returns only after
every worker has finished — at which point (for a nonempty pool) the
channel is drained and the processed identifiers are exactly the selected
ones. -/
theorem dispatch_channel_discipline
    (fenv : FetchEnv) (imdbIDs : List String) (workerCount : Int) (db : List Movie)
    (s : DispatchState) (h : Reach fenv imdbIDs workerCount db s) :
    chanCapacity imdbIDs = imdbIDs.length ∧
    (s.pending ≠ [] → s.buffer.length < chanCapacity imdbIDs ∧
        ∃ s', doAction fenv imdbIDs s Action.send = some s') ∧
    (s.closed = true → s.pending = []) ∧
    (s.returned = true → (∀ w ∈ s.workers, w.finished = true) ∧
        (s.workers ≠ [] → s.buffer = [] ∧ s.processed.Perm imdbIDs)) := by
  have hI := inv_reach fenv imdbIDs db workerCount s h
  have hlen : s.pending.length + s.buffer.length + (busyList s.workers).length
      + s.processed.length = imdbIDs.length := by
    have hcard := congrArg Multiset.card hI.perm
    simp only [Multiset.card_add, Multiset.coe_card] at hcard
    omega
  refine ⟨rfl, ?_, hI.closed_pending, ?_⟩
  · intro hpne
    have hp1 : 0 < s.pending.length := List.length_pos.mpr hpne
    have hlt : s.buffer.length < chanCapacity imdbIDs := by
      unfold chanCapacity
      omega
    refine ⟨hlt, ?_⟩
    cases hp : s.pending with
    | nil => exact absurd hp hpne
    | cons imdbID rest =>
      refine ⟨{ s with pending := rest, buffer := s.buffer ++ [imdbID] }, ?_⟩
      simp only [doAction, hp]
      rw [if_pos hlt]
  · intro hret
    obtain ⟨hclosed, hallfin⟩ := hI.ret_spec hret
    refine ⟨hallfin, ?_⟩
    intro hne
    have hbuf := hI.all_fin_buffer hclosed hne hallfin
    refine ⟨hbuf, ?_⟩
    have hpend := hI.closed_pending hclosed
    have hbusy := busyList_eq_nil s.workers (fun w hw => hI.fin_not_busy w hw (hallfin w hw))
    have hperm := hI.perm
    rw [hpend, hbuf, hbusy] at hperm
    simp only [Multiset.coe_nil, zero_add] at hperm
    exact Multiset.coe_eq_coe.mp hperm

/-- Witness for C8 at a concrete reachable state (one id already sent, one
still pending): the capacity is the item count 2 and the pending send is
enabled with the buffer strictly below capacity. -/
theorem dispatch_channel_discipline_witness :
    chanCapacity ["tt1", "tt2"] = 2 ∧ (1 : Nat) < chanCapacity ["tt1", "tt2"] := by
  have h := dispatch_channel_discipline fenvOK ["tt1", "tt2"] 1 dbSample
    { pending := ["tt2"], buffer := ["tt1"], closed := false,
      workers := [{ busy := none, finished := false }], db := dbSample,
      processed := [], returned := false } ⟨[.send], rfl⟩
  exact ⟨h.1, (h.2.1 (by decide)).1⟩

/-- C4: for every identifier whose `fetchPoster` call returns an error
(not-found or transport failure), the worker performs no write for that
identifier, so every row carrying that identifier — in particular one with
an unset `Poster` — is left entirely unchanged by the run;
`updatePosterInDB` is called only for identifiers whose fetch succeeded,
and (with distinct selected identifiers, per the spec's data model) at most
once per identifier per run. -/
theorem fetchPostersConcurrently_no_write_on_error
    (denv : DBEnv) (fenv : FetchEnv) (db : List Movie) (workerCount limit : Int)
    (db' : List Movie) (att : List String) (err : Option GoError)
    (h : fetchPostersConcurrently denv fenv db workerCount limit db' att err) :
    (∀ (imdbID : String) (e : GoError), fetchPoster fenv.http imdbID = .error e →
      ∀ (i : Nat) (m m' : Movie),
        db[i]? = some m → db'[i]? = some m' → m.imdbID = imdbID → m' = m) ∧
    (∀ imdbID ∈ updateCalls fenv att, ∃ u, fetchPoster fenv.http imdbID = .ok u) ∧
    (∀ imdbIDs, selectPhase denv db limit = .ok imdbIDs → imdbIDs.Nodup →
      ∀ imdbID, (updateCalls fenv att).count imdbID ≤ 1) := by
  refine ⟨?_, ?_, ?_⟩
  · intro imdbID e hfail i m m' hm hm' hmid
    have hpos := fpc_positional denv fenv db workerCount limit db' att err h i
    rw [hm, hm'] at hpos
    simp only [Option.map_some', Option.some.injEq] at hpos
    rw [hpos]
    exact foldl_recordStep_frame fenv imdbID e hfail att m hmid
  · intro imdbID hmem
    have hfilter := List.of_mem_filter hmem
    cases hf : fetchPoster fenv.http imdbID with
    | ok u => exact ⟨u, rfl⟩
    | error e =>
      rw [hf] at hfilter
      simp [Except.toOption] at hfilter
  · intro imdbIDs hsel hnd imdbID
    have hattnd : att.Nodup := by
      rcases le_or_lt 1 workerCount with hW | hW
      · have hperm := (fpc_attempts denv fenv db workerCount limit db' att err imdbIDs
          h hsel).2.1 hW
        exact hperm.symm.nodup hnd
      · have hz := (fpc_attempts denv fenv db workerCount limit db' att err imdbIDs
          h hsel).2.2 (by omega)
        rw [hz.1]
        exact List.nodup_nil
    exact List.nodup_iff_count_le_one.mp (hattnd.filter _) imdbID

/-- Witness for C4 at concrete inputs: in an environment where every fetch
fails with HTTP 500, a one-worker run over both sample rows leaves the
first row (identifier `"tt1"`, `Poster` unset) exactly as it was, and no
`updatePosterInDB` call is made for `"tt1"`. -/
theorem fetchPostersConcurrently_no_write_on_error_witness :
    mA = mA ∧ (updateCalls fenvFail ["tt1", "tt2"]).count "tt1" ≤ 1 := by
  have h := fetchPostersConcurrently_no_write_on_error denvOK fenvFail dbSample 1 2
    dbSample ["tt1", "tt2"] none
    (.dispatched ["tt1", "tt2"]
      [.send, .send, .close, .recv 0, .work 0, .recv 0, .work 0, .exitLoop 0, .ret]
      { pending := [], buffer := [], closed := true,
        workers := [{ busy := none, finished := true }], db := dbSample,
        processed := ["tt1", "tt2"], returned := true } (by rfl) (by rfl) (by rfl))
  exact ⟨h.1 "tt1" ("unexpected status code: " ++ toString 500) (by rfl) 0 mA mA rfl rfl rfl,
    h.2.2 ["tt1", "tt2"] rfl (by decide) "tt1"⟩

/-- C10: whenever `fetchPoster` returns with no error, the returned URL is
nonempty and not case-insensitively equal to `"n/a"`; consequently any
`Poster` value the pipeline changed is such a URL — in particular the
pipeline never writes an empty string into a record's `Poster` field. -/
theorem fetchPostersConcurrently_never_writes_empty
    (denv : DBEnv) (fenv : FetchEnv) (db : List Movie) (workerCount limit : Int)
    (db' : List Movie) (att : List String) (err : Option GoError)
    (h : fetchPostersConcurrently denv fenv db workerCount limit db' att err) :
    (∀ imdbID url, fetchPoster fenv.http imdbID = .ok url →
      url ≠ "" ∧ (goToLower url) ≠ "n/a") ∧
    (∀ (i : Nat) (m m' : Movie), db[i]? = some m → db'[i]? = some m' →
      m'.poster ≠ m.poster →
      ∃ url, m'.poster = some url ∧ url ≠ "" ∧ (goToLower url) ≠ "n/a") := by
  refine ⟨fun imdbID url hu => fetchPoster_ok_shape fenv.http imdbID url hu, ?_⟩
  intro i m m' hm hm' hne
  have hpos := fpc_positional denv fenv db workerCount limit db' att err h i
  rw [hm, hm'] at hpos
  simp only [Option.map_some', Option.some.injEq] at hpos
  rcases foldl_recordStep_poster fenv att m with hsame | ⟨imdbID2, url, hu, hp⟩
  · rw [hpos] at hne
    exact absurd hsame hne
  · rw [hpos]
    exact ⟨url, hp, fetchPoster_ok_shape fenv.http imdbID2 url hu⟩

/-- Witness for C10 at concrete inputs: the URL `"http:u"`, resolved with
no error, is nonempty and not `"n/a"`; the poster the successful sample
run wrote for `"tt1"` is exactly such a URL. -/
theorem fetchPostersConcurrently_never_writes_empty_witness :
    ("http:u" ≠ "" ∧ (goToLower "http:u") ≠ "n/a") ∧ mAp.poster ≠ none := by
  have h := fetchPostersConcurrently_never_writes_empty denvOK fenvOK dbSample 1 1
    [mAp, mB] ["tt1"] none
    (.dispatched ["tt1"] [.send, .close, .recv 0, .work 0, .exitLoop 0, .ret]
      { pending := [], buffer := [], closed := true,
        workers := [{ busy := none, finished := true }], db := [mAp, mB],
        processed := ["tt1"], returned := true } (by rfl) (by rfl) (by rfl))
  refine ⟨h.1 "tt1" "http:u" rfl, ?_⟩
  obtain ⟨url, hurl, -, -⟩ := h.2 0 mA mAp rfl rfl (by decide)
  rw [hurl]
  simp

/-- C7 counterexample: a fully-successful run need not cover every record
lacking a poster.  On the two-row sample table with limit 1 the first run
selects only `"tt1"`, resolves and persists it, yet the immediately
following selection returns `"tt2"`, which is not a member (let alone a
strict subset) of the first run's selection. -/
theorem second_run_subset_cex :
    fetchPostersConcurrently denvOK fenvOK dbSample 1 1 [mAp, mB] ["tt1"] none ∧
    selectPhase denvOK dbSample 1 = .ok ["tt1"] ∧
    fetchPoster fenvOK.http "tt1" = .ok "http:u" ∧
    fenvOK.writeOk "tt1" = true ∧
    mAp.poster = some "http:u" ∧
    selectMissingPosters [mAp, mB] 1 = ["tt2"] ∧
    ¬"tt2" ∈ (["tt1"] : List String) :=
  ⟨.dispatched ["tt1"] [.send, .close, .recv 0, .work 0, .exitLoop 0, .ret]
      { pending := [], buffer := [], closed := true,
        workers := [{ busy := none, finished := true }], db := [mAp, mB],
        processed := ["tt1"], returned := true } (by rfl) (by rfl) (by rfl),
   rfl, rfl, rfl, rfl, by decide, by decide⟩

/-- C7 (amended): whenever a run with at least one worker selects every
record lacking a poster (as happens when the limit is at least the number
of such records) and resolves and successfully persists a poster for every
identifier it selected, an immediately following run over the resulting
storage selects the empty sequence — a strict subset of the first run's
selection whenever that selection was nonempty. -/
theorem second_run_empty_after_full_success
    (denv : DBEnv) (fenv : FetchEnv) (db : List Movie) (workerCount limit : Int)
    (db' : List Movie) (att : List String) (imdbIDs : List String)
    (h : fetchPostersConcurrently denv fenv db workerCount limit db' att none)
    (hsel : selectPhase denv db limit = .ok imdbIDs)
    (hW : 1 ≤ workerCount)
    (hcover : ∀ m ∈ db, m.poster = none → m.imdbID ∈ imdbIDs)
    (hres : ∀ id ∈ imdbIDs, (∃ u, fetchPoster fenv.http id = .ok u) ∧
      fenv.writeOk id = true) :
    ∀ limit2 : Int, selectMissingPosters db' limit2 = [] ∧
      (∀ x ∈ selectMissingPosters db' limit2, x ∈ imdbIDs) ∧
      (imdbIDs ≠ [] → selectMissingPosters db' limit2 ≠ imdbIDs) := by
  have hperm := (fpc_attempts denv fenv db workerCount limit db' att none imdbIDs
    h hsel).2.1 hW
  have hdb := fpc_final_db denv fenv db workerCount limit db' att none h
  have hnone : ∀ m' ∈ db', m'.poster ≠ none := by
    intro m' hm'
    rw [hdb, foldl_workerStep_map] at hm'
    obtain ⟨m, hm, rfl⟩ := List.mem_map.mp hm'
    refine foldl_recordStep_none fenv att ?_ m ?_
    · intro id hid
      exact hres id (hperm.subset hid)
    · intro hp
      exact hperm.mem_iff.mpr (hcover m hm hp)
  intro limit2
  have hsel2 : selectMissingPosters db' limit2 = [] := by
    unfold selectMissingPosters sqlLimit
    have hf : db'.filter (fun m => m.poster.isNone) = [] := by
      rw [List.filter_eq_nil_iff]
      intro m hm hx
      exact hnone m hm (Option.isNone_iff_eq_none.mp hx)
    rw [hf]
    simp only [List.map_nil, List.take_nil]
    split <;> rfl
  refine ⟨hsel2, ?_, ?_⟩
  · intro x hx
    rw [hsel2] at hx
    exact absurd hx (List.not_mem_nil x)
  · intro hne
    rw [hsel2]
    exact fun hc => hne hc.symm

/-- Witness for the amended C7 at concrete inputs: after a one-worker run
with limit 2 that selects both sample rows and persists both posters, the
next selection is empty. -/
theorem second_run_empty_after_full_success_witness :
    selectMissingPosters [mAp, mBp] 5 = [] :=
  (second_run_empty_after_full_success denvOK fenvOK dbSample 1 2 [mAp, mBp]
    ["tt1", "tt2"] ["tt1", "tt2"]
    (.dispatched ["tt1", "tt2"]
      [.send, .send, .close, .recv 0, .work 0, .recv 0, .work 0, .exitLoop 0, .ret]
      { pending := [], buffer := [], closed := true,
        workers := [{ busy := none, finished := true }], db := [mAp, mBp],
        processed := ["tt1", "tt2"], returned := true } (by rfl) (by rfl) (by rfl))
    rfl (by decide) (by decide) (fun id _ => ⟨⟨"http:u", rfl⟩, rfl⟩) 5).1

end MPP
